import Mathlib

/-!
Verification development for the per-frame dynamic light assignment core
(components/sceneutil/lightmanager.cpp).

The embedding models the registry (`LightManager`), the light entity hook
(`CollectLightCallback`), the per-node selection hook (`CullCallback`), the
one-time decoration pass (`AttachCullCallbackVisitor`) and the composite
state cache (`getLightListStateSet`).  Geometry is modelled exactly over the
integers: points are integer vectors, matrices are affine maps in the
row-vector convention of the host scene-graph library, and `size_t`
arithmetic in the cache hash is modelled as natural numbers reduced modulo
2^64.  Floating-point rounding is out of scope; none of the proved
properties depend on it.
-/

namespace SceneUtil

/-- Integer 3-vector, standing in for the float vector type of the host
scene-graph library. -/
structure Vec3 where
  x : Int
  y : Int
  z : Int
deriving DecidableEq, Repr

/-- Difference of two vectors. -/
def Vec3.sub (a b : Vec3) : Vec3 :=
  ⟨a.x - b.x, a.y - b.y, a.z - b.z⟩

/-- Squared Euclidean length. -/
def Vec3.len2 (v : Vec3) : Int :=
  v.x * v.x + v.y * v.y + v.z * v.z

instance : Inhabited Vec3 := ⟨⟨0, 0, 0⟩⟩

/-- Affine transform: a 3x3 linear part plus a translation row, in the
row-vector convention of the host library (a point transforms as v * M). -/
structure Mat where
  a00 : Int
  a01 : Int
  a02 : Int
  a10 : Int
  a11 : Int
  a12 : Int
  a20 : Int
  a21 : Int
  a22 : Int
  t0 : Int
  t1 : Int
  t2 : Int
deriving DecidableEq, Repr

/-- Transform a point by the matrix (row-vector convention), the operation
the source calls as `mWorldMatrix.preMult(light->getPosition())`. -/
def Mat.preMult (m : Mat) (v : Vec3) : Vec3 :=
  ⟨v.x * m.a00 + v.y * m.a10 + v.z * m.a20 + m.t0,
   v.x * m.a01 + v.y * m.a11 + v.z * m.a21 + m.t1,
   v.x * m.a02 + v.y * m.a12 + v.z * m.a22 + m.t2⟩

/-- Matrix product in the row-vector convention: `Mat.mul a b` applies `a`
first and then `b`, matching the host library product `a * b` as used in
`l.mWorldMatrix * cam->getViewMatrix()`. -/
def Mat.mul (a b : Mat) : Mat :=
  ⟨a.a00 * b.a00 + a.a01 * b.a10 + a.a02 * b.a20,
   a.a00 * b.a01 + a.a01 * b.a11 + a.a02 * b.a21,
   a.a00 * b.a02 + a.a01 * b.a12 + a.a02 * b.a22,
   a.a10 * b.a00 + a.a11 * b.a10 + a.a12 * b.a20,
   a.a10 * b.a01 + a.a11 * b.a11 + a.a12 * b.a21,
   a.a10 * b.a02 + a.a11 * b.a12 + a.a12 * b.a22,
   a.a20 * b.a00 + a.a21 * b.a10 + a.a22 * b.a20,
   a.a20 * b.a01 + a.a21 * b.a11 + a.a22 * b.a21,
   a.a20 * b.a02 + a.a21 * b.a12 + a.a22 * b.a22,
   a.t0 * b.a00 + a.t1 * b.a10 + a.t2 * b.a20 + b.t0,
   a.t0 * b.a01 + a.t1 * b.a11 + a.t2 * b.a21 + b.t1,
   a.t0 * b.a02 + a.t1 * b.a12 + a.t2 * b.a22 + b.t2⟩

/-- Identity transform. -/
def Mat.identity : Mat :=
  ⟨1, 0, 0, 0, 1, 0, 0, 0, 1, 0, 0, 0⟩

instance : Inhabited Mat := ⟨Mat.identity⟩

/-- Bounding sphere.  The host library default-constructs a sphere with
center 0 and radius -1 (invalid). -/
structure Sphere where
  center : Vec3
  radius : Int
deriving DecidableEq, Repr

instance : Inhabited Sphere := ⟨⟨⟨0, 0, 0⟩, -1⟩⟩

/-- Validity of a bounding sphere in the host library: a nonnegative radius. -/
def Sphere.valid (s : Sphere) : Bool :=
  decide (0 ≤ s.radius)

/-- Sphere-sphere intersection test of the host library: both spheres valid
and the squared distance of the centers at most the square of the sum of the
radii. -/
def Sphere.intersects (a b : Sphere) : Bool :=
  a.valid && b.valid &&
    decide (Vec3.len2 (Vec3.sub a.center b.center) ≤ (a.radius + b.radius) * (a.radius + b.radius))

/-- Modelled from the spec: the external transform primitive
`transformBoundingSphere` (components/sceneutil/util.cpp, which is not under
src/) maps a bounding sphere through an affine matrix.  The center is mapped
through the matrix and the new radius is the largest of the lengths of the
images of the three axis offsets of length `radius`; the integer square root
stands in for the floating-point length. -/
def transformBoundingSphere (m : Mat) (s : Sphere) : Sphere :=
  let c := m.preMult s.center
  let xd := m.preMult ⟨s.center.x + s.radius, s.center.y, s.center.z⟩
  let yd := m.preMult ⟨s.center.x, s.center.y + s.radius, s.center.z⟩
  let zd := m.preMult ⟨s.center.x, s.center.y, s.center.z + s.radius⟩
  let lx : Int := Int.sqrt (Vec3.len2 (Vec3.sub xd c))
  let ly : Int := Int.sqrt (Vec3.len2 (Vec3.sub yd c))
  let lz : Int := Int.sqrt (Vec3.len2 (Vec3.sub zd c))
  ⟨c, max lx (max ly lz)⟩

/-- Opaque light definition: a position in the local frame of the light and
an opaque payload standing for the remaining parameters (color,
attenuation), which this core never inspects. -/
structure Light where
  position : Vec3
  params : Nat
deriving DecidableEq, Repr

instance : Inhabited Light := ⟨⟨⟨0, 0, 0⟩, 0⟩⟩

/-- LightSource scene node: radius of influence plus its light definition.
The constructor of the source sets the radius to 0. -/
structure LightSource where
  mRadius : Int
  mLight : Light
deriving DecidableEq, Repr

instance : Inhabited LightSource := ⟨⟨0, default⟩⟩

/-- Registered-light record `LightManager::LightSourceTransform`: the light
source, its world matrix at registration time, and the lazily computed
view-space bound (default-invalid until `prepareForCamera` runs). -/
structure LightSourceTransform where
  mLightSource : LightSource
  mWorldMatrix : Mat
  mViewBound : Sphere
deriving DecidableEq, Repr

instance : Inhabited LightSourceTransform := ⟨⟨default, Mat.identity, default⟩⟩

/-- One light as baked into a composite state: the assigned slot (the value
passed to `setLightNum`), the position after transforming by the world
matrix of the record, and the cloned opaque payload. -/
structure StateSetLight where
  mLightNum : Nat
  mPosition : Vec3
  mParams : Nat
deriving DecidableEq, Repr

instance : Inhabited StateSetLight := ⟨⟨0, default, 0⟩⟩

/-- Composite render state.  `mId` models object identity (the pointer of
the freshly allocated StateSet): two calls return the identical object
exactly when they return equal `mId`. -/
structure StateSet where
  mId : Nat
  mLights : List StateSetLight
deriving DecidableEq, Repr

mutual

/-- Scene-graph node of the subtree below a registry: a geode (renderable
leaf) or a group, each carrying the number of cull callbacks attached to it
so far. -/
inductive SceneNode where
  | geode (cullCallbacks : Nat)
  | group (cullCallbacks : Nat) (children : SceneForest)
deriving Repr

/-- List of child nodes (a mutual inductive stands in for `List SceneNode`
so that structural recursion stays primitive). -/
inductive SceneForest where
  | nil
  | cons (head : SceneNode) (tail : SceneForest)
deriving Repr

end

mutual

/-- Number of geode children directly in a forest. -/
def SceneForest.geodeCount : SceneForest → Nat
  | .nil => 0
  | .cons (.geode _) t => t.geodeCount + 1
  | .cons (.group _ _) t => t.geodeCount

end

mutual

/-- One-time decoration pass (`AttachCullCallbackVisitor`): visiting a geode
with a parent attaches one cull callback to that parent, so a group gains
one callback per geode child; a geode visited with no parent (the root) is
skipped. -/
def decorateNode : SceneNode → SceneNode
  | .geode cb => .geode cb
  | .group cb cs => .group (cb + cs.geodeCount) (decorateForest cs)

/-- Decoration of every node of a forest. -/
def decorateForest : SceneForest → SceneForest
  | .nil => .nil
  | .cons h t => .cons (decorateNode h) (decorateForest t)

end

mutual

/-- Total number of geodes in a tree. -/
def SceneNode.numGeodes : SceneNode → Nat
  | .geode _ => 1
  | .group _ cs => cs.numGeodesF

/-- Total number of geodes in a forest. -/
def SceneForest.numGeodesF : SceneForest → Nat
  | .nil => 0
  | .cons h t => h.numGeodes + t.numGeodesF

end

mutual

/-- Sum of the cull-callback counters over a tree. -/
def SceneNode.sumCallbacks : SceneNode → Nat
  | .geode cb => cb
  | .group cb cs => cb + cs.sumCallbacksF

/-- Sum of the cull-callback counters over a forest. -/
def SceneForest.sumCallbacksF : SceneForest → Nat
  | .nil => 0
  | .cons h t => h.sumCallbacks + t.sumCallbacksF

end

/-- Number of geodes of the tree that have a parent: every geode except the
root when the root itself is a geode. -/
def SceneNode.parentedGeodes : SceneNode → Nat
  | .geode _ => 0
  | .group _ cs => cs.numGeodesF

/-- Registry state (`LightManager`): the per-frame light sequence, the
view-space-computed flag, the once-per-lifetime decorated flag, the
composite-state cache keyed by the combined hash, an allocation counter
modelling pointer identity of freshly built StateSets, and the scene
subtree below the registry node. -/
structure LightManager where
  mLights : List LightSourceTransform
  mLightsInViewSpace : Bool
  mDecorated : Bool
  mStateSetCache : List (Nat × StateSet)
  mNextId : Nat
  mSubtree : SceneNode

/-- Freshly constructed registry: empty sequence and cache, both flags
clear, as in the `LightManager` constructor. -/
def LightManager.initial (subtree : SceneNode) : LightManager :=
  ⟨[], false, false, [], 0, subtree⟩

/-- Frame reset `LightManager::update`: clear the view-space flag, the light
sequence and the state-set cache, then run the decoration pass if the
registry has never been decorated, setting the decorated flag. -/
def LightManager.update (s : LightManager) : LightManager :=
  let s1 : LightManager :=
    { s with mLightsInViewSpace := false, mLights := [], mStateSetCache := [] }
  if s1.mDecorated then s1
  else { s1 with mSubtree := decorateNode s1.mSubtree, mDecorated := true }

/-- Registration `LightManager::addLight`: append one record holding the
light source and the given world matrix; the view bound starts out as the
default-constructed (invalid) sphere. -/
def LightManager.addLight (s : LightManager) (lightSource : LightSource) (worldMat : Mat) :
    LightManager :=
  { s with mLights := s.mLights ++ [⟨lightSource, worldMat, default⟩] }

/-- Body of the loop of `prepareForCamera` for one record: transform a
sphere of the radius of the light about the origin through world matrix
times camera view matrix and store it as the view bound. -/
def computeRecordViewBound (viewMatrix : Mat) (l : LightSourceTransform) :
    LightSourceTransform :=
  let worldViewMat := Mat.mul l.mWorldMatrix viewMatrix
  let unit : Sphere := ⟨⟨0, 0, 0⟩, l.mLightSource.mRadius⟩
  { l with mViewBound := transformBoundingSphere worldViewMat unit }

/-- Lazy per-frame bound computation `LightManager::prepareForCamera`: if
the view-space flag is unset, give every record the view bound obtained by
transforming a sphere of its radius about the origin through world matrix
times camera view matrix, and set the flag; otherwise do nothing. -/
def LightManager.prepareForCamera (s : LightManager) (viewMatrix : Mat) : LightManager :=
  if s.mLightsInViewSpace then s
  else
    { s with
      mLights := s.mLights.map (computeRecordViewBound viewMatrix),
      mLightsInViewSpace := true }

/-- Read-only view `LightManager::getLights`. -/
def LightManager.getLights (s : LightManager) : List LightSourceTransform :=
  s.mLights

/-- One step of `boost::hash_combine` over a 64-bit `size_t`:
`seed ^= v + 0x9e3779b9 + (seed << 6) + (seed >> 2)`, every operation taken
modulo 2^64. -/
def hashCombine (seed v : Nat) : Nat :=
  seed ^^^ ((v + 0x9e3779b9 + seed * 64 + seed / 4) % (2 ^ 64))

/-- Cache key of an ordered index sequence: the `hash_combine` fold over the
entries starting from seed 0, as computed at the head of
`getLightListStateSet`. -/
def hashLightList (lightList : List Nat) : Nat :=
  lightList.foldl hashCombine 0

/-- Lookup in the composite-state cache (`mStateSetCache.find(hash)`). -/
def cacheLookup (h : Nat) : List (Nat × StateSet) → Option StateSet
  | [] => none
  | (k, ss) :: rest => if k = h then some ss else cacheLookup h rest

/-- Build loop of `getLightListStateSet`: for the entry at position `i` of
the index sequence, clone the light of record `lightList[i]`, set its
position to the world matrix of the record applied to the light position,
and assign it light number `i`. -/
def buildLights (mLights : List LightSourceTransform) : List Nat → Nat → List StateSetLight
  | [], _ => []
  | lightIndex :: rest, i =>
    let l := mLights.getD lightIndex default
    ⟨i, l.mWorldMatrix.preMult l.mLightSource.mLight.position, l.mLightSource.mLight.params⟩
      :: buildLights mLights rest (i + 1)

/-- Composite-state lookup-or-build `LightManager::getLightListStateSet`:
hash the ordered index sequence, return the cached StateSet when the hash is
present, and otherwise build a fresh StateSet (fresh identity `mNextId`),
insert it under the hash and return it. -/
def LightManager.getLightListStateSet (s : LightManager) (lightList : List Nat) :
    StateSet × LightManager :=
  let h := hashLightList lightList
  match cacheLookup h s.mStateSetCache with
  | some ss => (ss, s)
  | none =>
    let ss : StateSet := ⟨s.mNextId, buildLights s.mLights lightList 0⟩
    (ss, { s with
            mStateSetCache := s.mStateSetCache ++ [(h, ss)],
            mNextId := s.mNextId + 1 })

/-- Intersection loop of `CullCallback::operator()`: the indices of the
registered lights whose view bound intersects the node bound, in
registration order. -/
def collectIntersecting (lights : List LightSourceTransform) (nodeBound : Sphere) : List Nat :=
  (List.range lights.length).filter fun i =>
    Sphere.intersects (lights.getD i default).mViewBound nodeBound

/-- Truncation loop of `CullCallback::operator()`: pop the last entry while
more than 8 remain (the fuel argument bounds the recursion by the length of
the list). -/
def popBackTo8 : Nat → List Nat → List Nat
  | 0, l => l
  | fuel + 1, l => if 8 < l.length then popBackTo8 fuel l.dropLast else l

/-- Selected index set of the cull hook for a node whose view-space bound is
`nodeBound`: collect the intersecting indices, then truncate to at most 8. -/
def cullLightList (lights : List LightSourceTransform) (nodeBound : Sphere) : List Nat :=
  let lightList := collectIntersecting lights nodeBound
  popBackTo8 lightList.length lightList

/-- Selected index set of `CullCallback::operator()` stated from the node
local bound and the current model-view matrix: the node bound is transformed
into view space first. -/
def cullSelectedIndices (lights : List LightSourceTransform) (nodeLocalBound : Sphere)
    (modelView : Mat) : List Nat :=
  cullLightList lights (transformBoundingSphere modelView nodeLocalBound)

/-- Node on the traversal path of the collection hook: whether the dynamic
cast to `LightManager` succeeds, the node identity, and its local transform
contribution to `computeLocalToWorld`. -/
structure PathNode where
  isLightManager : Bool
  nodeId : Nat
  localMat : Mat
deriving DecidableEq, Repr

/-- Scan of `CollectLightCallback::operator()`: walk the node path starting
at index 0 (the root end) and return the first node that dynamic-casts to
`LightManager`. -/
def findLightManager : List PathNode → Option Nat
  | [] => none
  | n :: rest => if n.isLightManager then some n.nodeId else findLightManager rest

/-- World transform of the entity from the current node path
(`osg::computeLocalToWorld`): the composition of the local transforms from
the root down to the entity. -/
def computeLocalToWorld (path : List PathNode) : Mat :=
  path.foldl (fun acc n => Mat.mul n.localMat acc) Mat.identity

/-- Outcome of one run of the collection hook: the registry the entity was
registered with (the argument of the `addLight` call), the world matrix
passed along, and the cached registry pointer after the run. -/
structure CollectResult where
  registeredWith : Nat
  worldMat : Mat
  newCached : Option Nat
deriving DecidableEq, Repr

/-- One run of `CollectLightCallback::operator()`: when no registry is
cached yet, scan the path for the first `LightManager` and fail with a
runtime error when none is found; then register with the (found or cached)
registry using the world transform of the current path. -/
def collectLightOperator (cached : Option Nat) (path : List PathNode) :
    Except String CollectResult :=
  match cached with
  | some m => .ok ⟨m, computeLocalToWorld path, some m⟩
  | none =>
    match findLightManager path with
    | some m => .ok ⟨m, computeLocalToWorld path, some m⟩
    | none => .error "cannot find parent LightManager"

/-- Stated from the specification words, for comparison with the code: the
nearest enclosing Registry along the current position in the hierarchy is
the closest `LightManager` ancestor on the traversal path, i.e. the last
one on the root-first path. -/
def nearestEnclosingManager (path : List PathNode) : Option Nat :=
  findLightManager path.reverse

/-- Run a sequence of composite-state queries, keeping only the evolving
registry state. -/
def runQueries (s : LightManager) (qs : List (List Nat)) : LightManager :=
  qs.foldl (fun st q => (st.getLightListStateSet q).2) s

/-- Run a sequence of registrations (`addLight` calls). -/
def runAddLights (s : LightManager) (calls : List (LightSource × Mat)) : LightManager :=
  calls.foldl (fun st c => st.addLight c.1 c.2) s

/-- Well-formedness of the cache: the identities of the cached StateSets are
pairwise distinct and all below the allocation counter.  It holds for a
fresh registry and is preserved by every operation. -/
def CacheWF (s : LightManager) : Prop :=
  (s.mStateSetCache.map fun e => e.2.mId).Nodup ∧
    ∀ e ∈ s.mStateSetCache, e.2.mId < s.mNextId

instance (s : LightManager) : Decidable (CacheWF s) := by
  unfold CacheWF; infer_instance

instance : Inhabited PathNode := ⟨⟨false, 0, Mat.identity⟩⟩

/-- Sum, over the nodes of a forest, of the number of parented geodes inside
each node. -/
def SceneForest.parentedGeodesF : SceneForest → Nat
  | .nil => 0
  | .cons h t => h.parentedGeodes + t.parentedGeodesF

/-- Expected composite entry for sequence position `k` holding light index
`lightIndex`: the record is looked up, its light payload cloned, its
position transformed by the world matrix of the record, and the slot set to
`k`. -/
def expectedSlotLight (mLights : List LightSourceTransform) (lightIndex k : Nat) :
    StateSetLight :=
  let l := mLights.getD lightIndex default
  ⟨k, l.mWorldMatrix.preMult l.mLightSource.mLight.position, l.mLightSource.mLight.params⟩

/-- Registry state whose view-space flag is already set, used to instantiate
the idempotence theorem. -/
def witnessFlaggedState : LightManager :=
  ⟨[], true, false, [], 0, SceneNode.geode 0⟩

/-- Ten registered lights whose view bounds all intersect
`witnessNodeBound`. -/
def witnessLights : List LightSourceTransform :=
  List.replicate 10 ⟨default, Mat.identity, ⟨⟨0, 0, 0⟩, 1⟩⟩

/-- Node view bound intersecting every entry of `witnessLights`. -/
def witnessNodeBound : Sphere := ⟨⟨0, 0, 0⟩, 1⟩

/-- Light source number `i` of the collision scenario. -/
def ceLight (i : Nat) : LightSource := ⟨1, ⟨⟨Int.ofNat i, 0, 0⟩, i⟩⟩

/-- Registry of a frame holding 256 registered lights, reached from a fresh
registry by one reset followed by 256 registrations. -/
def ceRegistry : LightManager :=
  runAddLights (LightManager.initial (SceneNode.geode 0)).update
    ((List.range 256).map fun i => (ceLight i, Mat.identity))

/-- First of two distinct ordered index sequences whose combined hashes
collide. -/
def ceSeqA : List Nat := [201, 110, 69, 126, 154, 164, 226, 235]

/-- Second of two distinct ordered index sequences whose combined hashes
collide. -/
def ceSeqB : List Nat := [201, 104, 191, 61, 153, 99, 226, 235]

/-- Path node that dynamic-casts to `LightManager`. -/
def ceManagerNode (i : Nat) : PathNode := ⟨true, i, Mat.identity⟩

/-- Path node that is not a `LightManager`. -/
def cePlainNode (i : Nat) : PathNode := ⟨false, i, Mat.identity⟩

/-- Root-first traversal path with two nested registries above the entity. -/
def ceNestedPath : List PathNode := [ceManagerNode 0, ceManagerNode 1, cePlainNode 2]

/-- Root-first traversal path of a later frame in which the entity sits
below a different registry. -/
def ceReparentedPath : List PathNode := [ceManagerNode 3, cePlainNode 2]

/-- Root-first traversal path with exactly one registry above the entity. -/
def ceFirstFramePath : List PathNode := [ceManagerNode 0, cePlainNode 1]

/-- Root-first traversal path containing no registry at all. -/
def ceNoManagerPath : List PathNode := [cePlainNode 1]

/-- Fresh, never-reset registry over a one-geode subtree. -/
def witnessUndecorated : LightManager :=
  LightManager.initial
    (SceneNode.group 0 (SceneForest.cons (SceneNode.geode 0) SceneForest.nil))

/-- Freshly reset registry with no lights, used to instantiate the cache
theorems. -/
def witnessFreshRegistry : LightManager :=
  (LightManager.initial (SceneNode.geode 0)).update

/-! ## Helper lemmas -/

/-- Field values of the registry right after a frame reset. -/
theorem update_fields (s : LightManager) :
    (s.update).mLights = [] ∧ (s.update).mStateSetCache = [] ∧
      (s.update).mLightsInViewSpace = false ∧ (s.update).mDecorated = true := by
  unfold LightManager.update
  by_cases h : s.mDecorated <;> simp [h]

/-- Effect of a run of registrations on the light sequence. -/
theorem runAddLights_mLights (s : LightManager) (calls : List (LightSource × Mat)) :
    (runAddLights s calls).mLights
      = s.mLights ++ (calls.map fun c => ⟨c.1, c.2, default⟩) := by
  induction calls generalizing s with
  | nil => simp [runAddLights]
  | cons c t ih =>
    have step : runAddLights s (c :: t) = runAddLights (s.addLight c.1 c.2) t := rfl
    rw [step, ih]
    simp [LightManager.addLight]

/-- Slot numbers produced by the build loop starting at counter `i`. -/
theorem buildLights_map_num (mLights : List LightSourceTransform)
    (lightList : List Nat) (i : Nat) :
    ((buildLights mLights lightList i).map fun sl => sl.mLightNum)
      = List.range' i lightList.length := by
  induction lightList generalizing i with
  | nil => simp [buildLights]
  | cons a t ih => simp [buildLights, List.range'_succ, ih]

/-- Entry at position `k` produced by the build loop starting at counter
`i`. -/
theorem buildLights_getD (mLights : List LightSourceTransform)
    (lightList : List Nat) (i k : Nat) (hk : k < lightList.length) :
    (buildLights mLights lightList i).getD k default
      = expectedSlotLight mLights (lightList.getD k 0) (i + k) := by
  induction lightList generalizing i k with
  | nil => simp at hk
  | cons a t ih =>
    cases k with
    | zero => simp [buildLights, expectedSlotLight]
    | succ k =>
      have hk2 : k < t.length := by simpa using hk
      have harith : i + 1 + k = i + (k + 1) := by omega
      simpa [buildLights, harith] using ih (i + 1) k hk2

/-! ## Claim theorems -/

/-- C3: immediately after a frame reset (`LightManager::update`), the light
sequence is empty, the composite-state cache is empty and the
view-space-bounds-computed flag is cleared, whatever the previous registry
state was. -/
theorem update_clears_state (s : LightManager) :
    (s.update).mLights = [] ∧ (s.update).mStateSetCache = [] ∧
      (s.update).mLightsInViewSpace = false :=
  ⟨(update_fields s).1, (update_fields s).2.1, (update_fields s).2.2.1⟩

/-- C5: `prepareForCamera` is idempotent within a frame: whenever the
view-space flag is already set a call is a no-op (so no previously computed
view bound changes), and in particular a second call with any other camera
right after a first call changes nothing. -/
theorem prepareForCamera_idempotent (s : LightManager) (cam1 cam2 : Mat) :
    (s.mLightsInViewSpace = true → s.prepareForCamera cam1 = s) ∧
      (s.prepareForCamera cam1).prepareForCamera cam2 = s.prepareForCamera cam1 := by
  constructor
  · intro h
    unfold LightManager.prepareForCamera
    simp [h]
  · unfold LightManager.prepareForCamera
    by_cases h : s.mLightsInViewSpace <;> simp [h]

/-- Witness for C5 at a registry whose flag is set. -/
theorem prepareForCamera_idempotent_witness :
    witnessFlaggedState.prepareForCamera Mat.identity = witnessFlaggedState :=
  (prepareForCamera_idempotent witnessFlaggedState Mat.identity Mat.identity).1 rfl

/-- C7: registration appends one record per call, without deduplication and
without a capacity limit: after a reset followed by any list of `addLight`
calls, `getLights` returns exactly one record per call, in call order, each
holding the source and world matrix of its call. -/
theorem registerLight_appends (s : LightManager) (calls : List (LightSource × Mat)) :
    (runAddLights s calls).mLights
        = s.mLights ++ (calls.map fun c => ⟨c.1, c.2, default⟩) ∧
      (runAddLights s.update calls).getLights
        = (calls.map fun c => ⟨c.1, c.2, default⟩) ∧
      ((runAddLights s.update calls).getLights).length = calls.length := by
  have h2 : (runAddLights s.update calls).getLights
      = (calls.map fun c => ⟨c.1, c.2, default⟩) := by
    unfold LightManager.getLights
    rw [runAddLights_mLights, (update_fields s).1]
    simp
  exact ⟨runAddLights_mLights s calls, h2, by rw [h2]; simp⟩

/-- C6: the light placed at position `k` of the ordered index sequence
passed to the composite-state builder is assigned slot `k`: the slot numbers
of the built entries read 0, 1, 2, ... in sequence order, and the entry at
position `k` is the clone of the light of record `lightList[k]` carrying
light number `k`. -/
theorem buildLights_slot_assignment (mLights : List LightSourceTransform)
    (lightList : List Nat) :
    ((buildLights mLights lightList 0).map fun sl => sl.mLightNum)
        = List.range lightList.length ∧
      ∀ k, k < lightList.length →
        (buildLights mLights lightList 0).getD k default
          = expectedSlotLight mLights (lightList.getD k 0) k := by
  constructor
  · rw [buildLights_map_num, List.range_eq_range']
  · intro k hk
    simpa using buildLights_getD mLights lightList 0 k hk

/-- Witness for C6 on a concrete two-light registry and the reversed index
sequence. -/
theorem buildLights_slot_assignment_witness :
    (buildLights (ceRegistry.mLights.take 2) [1, 0] 0).getD 1 default
      = expectedSlotLight (ceRegistry.mLights.take 2) 0 1 :=
  (buildLights_slot_assignment (ceRegistry.mLights.take 2) [1, 0]).2 1 (by decide)

/-- The pop-back truncation loop keeps exactly the first 8 entries. -/
theorem popBackTo8_eq_take (fuel : Nat) :
    ∀ l : List Nat, l.length ≤ fuel → popBackTo8 fuel l = l.take 8 := by
  induction fuel with
  | zero =>
    intro l hl
    have : l = [] := List.eq_nil_of_length_eq_zero (Nat.le_zero.mp hl)
    simp [this, popBackTo8]
  | succ fuel ih =>
    intro l hl
    unfold popBackTo8
    by_cases h8 : 8 < l.length
    · simp only [h8, if_true]
      have hlen : l.dropLast.length ≤ fuel := by
        simp only [List.length_dropLast]
        omega
      rw [ih l.dropLast hlen, List.dropLast_eq_take, List.take_take]
      have : min 8 (l.length - 1) = 8 := by omega
      rw [this]
    · simp only [h8, if_false]
      exact (List.take_of_length_le (by omega)).symm

/-- C1: the selected index set of the cull hook equals the first 8 of the
indices of the lights whose view bound intersects the node view bound, in
registration order: every selected index is an intersecting light, the
selection is increasing in registration order, it is the whole intersecting
set when at most 8 lights intersect, and exactly the first 8 of it when more
than 8 intersect. -/
theorem cull_selected_indices_spec (lights : List LightSourceTransform)
    (nodeBound : Sphere) :
    cullLightList lights nodeBound = (collectIntersecting lights nodeBound).take 8 ∧
      (cullLightList lights nodeBound).Pairwise (· < ·) ∧
      (∀ i ∈ cullLightList lights nodeBound,
        i < lights.length ∧
          Sphere.intersects (lights.getD i default).mViewBound nodeBound = true) ∧
      ((collectIntersecting lights nodeBound).length ≤ 8 →
        cullLightList lights nodeBound = collectIntersecting lights nodeBound ∧
          ∀ i, i < lights.length →
            Sphere.intersects (lights.getD i default).mViewBound nodeBound = true →
            i ∈ cullLightList lights nodeBound) ∧
      (8 < (collectIntersecting lights nodeBound).length →
        (cullLightList lights nodeBound).length = 8 ∧
          cullLightList lights nodeBound = (collectIntersecting lights nodeBound).take 8) := by
  have heq : cullLightList lights nodeBound
      = (collectIntersecting lights nodeBound).take 8 :=
    popBackTo8_eq_take _ _ (Nat.le_refl _)
  have hmem : ∀ i ∈ cullLightList lights nodeBound,
      i < lights.length ∧
        Sphere.intersects (lights.getD i default).mViewBound nodeBound = true := by
    intro i hi
    rw [heq] at hi
    have hi2 := List.mem_of_mem_take hi
    unfold collectIntersecting at hi2
    rw [List.mem_filter] at hi2
    exact ⟨List.mem_range.mp hi2.1, hi2.2⟩
  refine ⟨heq, ?_, hmem, ?_, ?_⟩
  · rw [heq]
    exact ((List.pairwise_lt_range _).sublist
      ((List.filter_sublist _).trans (by rfl))).sublist (List.take_sublist _ _)
  · intro hle
    have hfull : cullLightList lights nodeBound = collectIntersecting lights nodeBound := by
      rw [heq]
      exact List.take_of_length_le hle
    refine ⟨hfull, ?_⟩
    intro i hi hint
    rw [hfull]
    unfold collectIntersecting
    rw [List.mem_filter]
    exact ⟨List.mem_range.mpr hi, hint⟩
  · intro hgt
    refine ⟨?_, heq⟩
    rw [heq, List.length_take]
    omega

/-- Witness for C1: ten intersecting lights truncate to the first 8. -/
theorem cull_selected_indices_spec_witness :
    8 < (collectIntersecting witnessLights witnessNodeBound).length ∧
      (cullLightList witnessLights witnessNodeBound).length = 8 ∧
      cullLightList witnessLights witnessNodeBound
        = (collectIntersecting witnessLights witnessNodeBound).take 8 :=
  ⟨by decide,
   ((cull_selected_indices_spec witnessLights witnessNodeBound).2.2.2.2 (by decide)).1,
   ((cull_selected_indices_spec witnessLights witnessNodeBound).2.2.2.2 (by decide)).2⟩

/-- Geodes of a forest split into the direct geode children (whose parent is
the enclosing group) and the geodes parented deeper inside. -/
theorem numGeodesF_split : ∀ f : SceneForest,
    f.numGeodesF = f.geodeCount + f.parentedGeodesF
  | .nil => rfl
  | .cons (.geode cb) t => by
    have ih := numGeodesF_split t
    simp [SceneForest.numGeodesF, SceneForest.geodeCount, SceneForest.parentedGeodesF,
      SceneNode.numGeodes, SceneNode.parentedGeodes, ih]
    omega
  | .cons (.group cb cs) t => by
    have ih := numGeodesF_split t
    simp [SceneForest.numGeodesF, SceneForest.geodeCount, SceneForest.parentedGeodesF,
      SceneNode.numGeodes, SceneNode.parentedGeodes, ih]
    omega

mutual

/-- Decoration adds, over a whole tree, one callback per parented geode. -/
theorem decorateNode_sum : ∀ t : SceneNode,
    (decorateNode t).sumCallbacks = t.sumCallbacks + t.parentedGeodes
  | .geode cb => by
    simp [decorateNode, SceneNode.sumCallbacks, SceneNode.parentedGeodes]
  | .group cb cs => by
    have h1 := decorateForest_sum cs
    have h2 := numGeodesF_split cs
    simp [decorateNode, SceneNode.sumCallbacks, SceneNode.parentedGeodes, h1]
    omega

/-- Decoration adds, over a forest, one callback per geode parented inside
it plus one per direct geode child (attached to the enclosing group by the
caller). -/
theorem decorateForest_sum : ∀ f : SceneForest,
    (decorateForest f).sumCallbacksF = f.sumCallbacksF + f.parentedGeodesF
  | .nil => by
    simp [decorateForest, SceneForest.sumCallbacksF, SceneForest.parentedGeodesF]
  | .cons h t => by
    have h1 := decorateNode_sum h
    have h2 := decorateForest_sum t
    simp [decorateForest, SceneForest.sumCallbacksF, SceneForest.parentedGeodesF, h1, h2]
    omega

end

/-- C9: the decoration pass runs exactly once per registry lifetime: every
reset leaves the decorated flag set, the first reset of an undecorated
registry decorates the subtree, a reset of a decorated registry leaves the
subtree untouched (so a second reset never decorates again), and
decoration attaches one cull callback to the immediate parent of every
renderable leaf — each group gains exactly one callback per geode child, a
root geode (a leaf with no parent) is skipped unchanged, and over the whole
tree exactly one callback per parented geode is added. -/
theorem decoration_once (s : LightManager) :
    (s.update).mDecorated = true ∧
      (s.mDecorated = false → (s.update).mSubtree = decorateNode s.mSubtree) ∧
      (s.mDecorated = true → (s.update).mSubtree = s.mSubtree) ∧
      ((s.update).update).mSubtree = (s.update).mSubtree ∧
      (∀ cb cs, decorateNode (SceneNode.group cb cs)
        = SceneNode.group (cb + cs.geodeCount) (decorateForest cs)) ∧
      (∀ cb, decorateNode (SceneNode.geode cb) = SceneNode.geode cb) ∧
      (∀ t : SceneNode, (decorateNode t).sumCallbacks
        = t.sumCallbacks + t.parentedGeodes) := by
  have hflag : (s.update).mDecorated = true := (update_fields s).2.2.2
  refine ⟨hflag, ?_, ?_, ?_, fun cb cs => rfl, fun cb => rfl, decorateNode_sum⟩
  · intro h
    unfold LightManager.update
    simp [h]
  · intro h
    unfold LightManager.update
    simp [h]
  · conv_lhs => rw [LightManager.update]
    simp [hflag]

/-- Witness for C9 at a concrete undecorated one-geode registry. -/
theorem decoration_once_witness :
    (witnessUndecorated.update).mSubtree = decorateNode witnessUndecorated.mSubtree ∧
      ((witnessUndecorated.update).update).mSubtree = (witnessUndecorated.update).mSubtree :=
  ⟨(decoration_once witnessUndecorated).2.1 rfl,
   (decoration_once witnessUndecorated).2.2.2.1⟩

/-- A successful path scan returns the manager at some position `k` of the
root-first path such that no earlier position is a manager. -/
theorem findLightManager_spec (path : List PathNode) (m : Nat)
    (h : findLightManager path = some m) :
    ∃ k, k < path.length ∧ (path.getD k default).isLightManager = true ∧
      (path.getD k default).nodeId = m ∧
      ∀ j, j < k → (path.getD j default).isLightManager = false := by
  induction path with
  | nil => simp [findLightManager] at h
  | cons n rest ih =>
    by_cases hn : n.isLightManager
    · rw [findLightManager, if_pos hn] at h
      refine ⟨0, by simp, by simpa using hn, by simpa using h, ?_⟩
      intro j hj
      omega
    · rw [findLightManager, if_neg hn] at h
      obtain ⟨k, hk, hman, hid, hbefore⟩ := ih h
      refine ⟨k + 1, by simpa using hk, by simpa using hman, by simpa using hid, ?_⟩
      intro j hj
      cases j with
      | zero => simpa using Bool.of_not_eq_true hn
      | succ j => simpa using hbefore j (by omega)

/-- The path scan fails exactly when no node of the path is a manager. -/
theorem findLightManager_none_iff (path : List PathNode) :
    findLightManager path = none ↔ ∀ n ∈ path, n.isLightManager = false := by
  induction path with
  | nil => simp [findLightManager]
  | cons n rest ih =>
    by_cases hn : n.isLightManager
    · simp [findLightManager, hn]
    · simp [findLightManager, hn, ih, Bool.of_not_eq_true hn]

/-- C4 (amended): the collection hook registers with its cached registry
when one is cached; only on a run with no cached registry does it scan the
current traversal path, and then it registers with the first registry on the
root-first path — the outermost enclosing one, which it also caches — and in
every successful run the world transform passed to `registerLight` is the
one computed from the current path. -/
theorem collect_registers_outermost (cached : Option Nat) (path : List PathNode) :
    (∀ m, cached = some m →
      collectLightOperator cached path
        = .ok ⟨m, computeLocalToWorld path, some m⟩) ∧
      (cached = none →
        ∀ r, collectLightOperator cached path = .ok r →
          r.worldMat = computeLocalToWorld path ∧
            r.newCached = some r.registeredWith ∧
            ∃ k, k < path.length ∧
              (path.getD k default).isLightManager = true ∧
              (path.getD k default).nodeId = r.registeredWith ∧
              ∀ j, j < k → (path.getD j default).isLightManager = false) := by
  constructor
  · rintro m rfl
    rfl
  · rintro rfl r hr
    unfold collectLightOperator at hr
    cases hf : findLightManager path with
    | none => rw [hf] at hr; exact absurd hr (by simp)
    | some m =>
      rw [hf] at hr
      have hr2 : r = ⟨m, computeLocalToWorld path, some m⟩ := by
        simpa using hr.symm
      subst hr2
      exact ⟨rfl, rfl, findLightManager_spec path m hf⟩

/-- Witness for C4 at a cached registry and at a first run over a path with
one manager. -/
theorem collect_registers_outermost_witness :
    collectLightOperator (some 5) ceNoManagerPath
        = .ok ⟨5, computeLocalToWorld ceNoManagerPath, some 5⟩ ∧
      (collectLightOperator none ceFirstFramePath
          = .ok ⟨0, computeLocalToWorld ceFirstFramePath, some 0⟩ →
        ∃ k, k < ceFirstFramePath.length ∧
          (ceFirstFramePath.getD k default).isLightManager = true ∧
          (ceFirstFramePath.getD k default).nodeId = 0 ∧
          ∀ j, j < k → (ceFirstFramePath.getD j default).isLightManager = false) :=
  ⟨(collect_registers_outermost (some 5) ceNoManagerPath).1 5 rfl,
   fun h => ((collect_registers_outermost none ceFirstFramePath).2 rfl _ h).2.2⟩

/-- Counterexample to C4 as stated: under two nested registries the hook
registers with the outermost manager (id 0), not the nearest enclosing one
(id 1), and after caching it a later run on a path below a different
registry (id 3) still registers with the cached manager 0. -/
theorem collect_registers_outermost_counterexample :
    collectLightOperator none ceNestedPath
        = .ok ⟨0, computeLocalToWorld ceNestedPath, some 0⟩ ∧
      nearestEnclosingManager ceNestedPath = some 1 ∧
      collectLightOperator (some 0) ceReparentedPath
        = .ok ⟨0, computeLocalToWorld ceReparentedPath, some 0⟩ ∧
      nearestEnclosingManager ceReparentedPath = some 3 := by
  refine ⟨rfl, rfl, rfl, rfl⟩

/-- C8 (amended): a run of the collection hook raises the runtime error
exactly when no registry is cached yet and no node of the current traversal
path is a registry (and then the entity is not registered); whenever an
enclosing registry exists on the path — or one is already cached — the run
succeeds without error. -/
theorem collect_error_condition (cached : Option Nat) (path : List PathNode) :
    ((∃ e, collectLightOperator cached path = .error e) ↔
        cached = none ∧ ∀ n ∈ path, n.isLightManager = false) ∧
      ((∃ n ∈ path, n.isLightManager = true) →
        ∃ r, collectLightOperator cached path = .ok r) := by
  cases cached with
  | some m =>
    constructor
    · constructor
      · rintro ⟨e, he⟩
        exact absurd he (by simp [collectLightOperator])
      · rintro ⟨h, -⟩
        exact absurd h (by simp)
    · intro _
      exact ⟨⟨m, computeLocalToWorld path, some m⟩, rfl⟩
  | none =>
    cases hf : findLightManager path with
    | some m =>
      constructor
      · constructor
        · rintro ⟨e, he⟩
          rw [collectLightOperator, hf] at he
          exact absurd he (by simp)
        · rintro ⟨-, hall⟩
          rw [(findLightManager_none_iff path).mpr hall] at hf
          exact absurd hf (by simp)
      · intro _
        exact ⟨⟨m, computeLocalToWorld path, some m⟩, by rw [collectLightOperator, hf]⟩
    | none =>
      have hall := (findLightManager_none_iff path).mp hf
      constructor
      · constructor
        · intro _
          exact ⟨rfl, hall⟩
        · intro _
          exact ⟨"cannot find parent LightManager", by rw [collectLightOperator, hf]⟩
      · rintro ⟨n, hn, hman⟩
        exact absurd (hall n hn) (by simp [hman])

/-- Witness for C8: a first run over a registry-free path errors, and a run
over a path holding a registry succeeds. -/
theorem collect_error_condition_witness :
    (∃ e, collectLightOperator none ceNoManagerPath = .error e) ∧
      (∃ r, collectLightOperator none ceFirstFramePath = .ok r) :=
  ⟨(collect_error_condition none ceNoManagerPath).1.mpr ⟨rfl, by decide⟩,
   (collect_error_condition none ceFirstFramePath).2 ⟨ceManagerNode 0, by simp [ceFirstFramePath], rfl⟩⟩

/-- Counterexample to C8 as stated: after a first run beneath registry 0 the
hook caches it, and a later run over a path containing no registry raises no
error — the entity is registered with the stale cached registry 0 instead of
failing fatally. -/
theorem collect_error_condition_counterexample :
    collectLightOperator none ceFirstFramePath
        = .ok ⟨0, computeLocalToWorld ceFirstFramePath, some 0⟩ ∧
      (∀ n ∈ ceNoManagerPath, n.isLightManager = false) ∧
      collectLightOperator (some 0) ceNoManagerPath
        = .ok ⟨0, computeLocalToWorld ceNoManagerPath, some 0⟩ := by
  exact ⟨rfl, by decide, rfl⟩

/-- A cache hit survives appending further entries. -/
theorem cacheLookup_append_of_some (h : Nat) (c c2 : List (Nat × StateSet))
    (ss : StateSet) (hc : cacheLookup h c = some ss) :
    cacheLookup h (c ++ c2) = some ss := by
  induction c with
  | nil => simp [cacheLookup] at hc
  | cons e t ih =>
    obtain ⟨k, v⟩ := e
    by_cases hk : k = h
    · rw [cacheLookup, if_pos hk] at hc
      rw [List.cons_append, cacheLookup, if_pos hk]
      exact hc
    · rw [cacheLookup, if_neg hk] at hc
      rw [List.cons_append, cacheLookup, if_neg hk]
      exact ih hc

/-- Appending an entry under a previously missing key makes lookup of that
key return it. -/
theorem cacheLookup_append_self (h : Nat) (c : List (Nat × StateSet))
    (ss : StateSet) (hc : cacheLookup h c = none) :
    cacheLookup h (c ++ [(h, ss)]) = some ss := by
  induction c with
  | nil => simp [cacheLookup]
  | cons e t ih =>
    obtain ⟨k, v⟩ := e
    by_cases hk : k = h
    · rw [cacheLookup, if_pos hk] at hc
      exact absurd hc (by simp)
    · rw [cacheLookup, if_neg hk] at hc
      rw [List.cons_append, cacheLookup, if_neg hk]
      exact ih hc

/-- A successful lookup returns an entry of the cache at that key. -/
theorem cacheLookup_mem (h : Nat) (c : List (Nat × StateSet)) (ss : StateSet)
    (hc : cacheLookup h c = some ss) : (h, ss) ∈ c := by
  induction c with
  | nil => simp [cacheLookup] at hc
  | cons e t ih =>
    obtain ⟨k, v⟩ := e
    by_cases hk : k = h
    · rw [cacheLookup, if_pos hk] at hc
      subst hk
      simp_all
    · rw [cacheLookup, if_neg hk] at hc
      exact List.mem_cons_of_mem _ (ih hc)

/-- After a composite-state query, the cache maps the hash of the queried
sequence to the returned StateSet. -/
theorem query_lookup_self (s : LightManager) (q : List Nat) :
    cacheLookup (hashLightList q) ((s.getLightListStateSet q).2).mStateSetCache
      = some (s.getLightListStateSet q).1 := by
  unfold LightManager.getLightListStateSet
  cases hc : cacheLookup (hashLightList q) s.mStateSetCache with
  | some ss => simp [hc]
  | none => simpa [hc] using cacheLookup_append_self _ _ _ hc

/-- A composite-state query never removes or changes an existing cache
entry. -/
theorem query_preserves_lookup (s : LightManager) (q : List Nat) (h : Nat)
    (ss : StateSet) (hc : cacheLookup h s.mStateSetCache = some ss) :
    cacheLookup h ((s.getLightListStateSet q).2).mStateSetCache = some ss := by
  unfold LightManager.getLightListStateSet
  cases hq : cacheLookup (hashLightList q) s.mStateSetCache with
  | some ss2 => simpa [hq] using hc
  | none => simpa [hq] using cacheLookup_append_of_some _ _ _ _ hc

/-- A run of composite-state queries never removes or changes an existing
cache entry. -/
theorem runQueries_preserves_lookup (qs : List (List Nat)) :
    ∀ (s : LightManager) (h : Nat) (ss : StateSet),
      cacheLookup h s.mStateSetCache = some ss →
      cacheLookup h (runQueries s qs).mStateSetCache = some ss := by
  induction qs with
  | nil => intro s h ss hc; simpa [runQueries] using hc
  | cons q qs ih =>
    intro s h ss hc
    have step : runQueries s (q :: qs) = runQueries (s.getLightListStateSet q).2 qs := rfl
    rw [step]
    exact ih _ _ _ (query_preserves_lookup s q h ss hc)

/-- A composite-state query preserves cache well-formedness. -/
theorem query_preserves_WF (s : LightManager) (q : List Nat) (hwf : CacheWF s) :
    CacheWF (s.getLightListStateSet q).2 := by
  obtain ⟨hnd, hlt⟩ := hwf
  unfold LightManager.getLightListStateSet
  cases hq : cacheLookup (hashLightList q) s.mStateSetCache with
  | some ss => simpa [hq] using ⟨hnd, hlt⟩
  | none =>
    simp only [hq]
    constructor
    · rw [List.map_append]
      rw [List.nodup_append]
      refine ⟨hnd, by simp, ?_⟩
      intro x hx
      simp only [List.map_map, List.mem_map] at hx
      obtain ⟨e, he, rfl⟩ := hx
      have := hlt e he
      simp only [List.map_cons, List.map_nil, List.mem_singleton, Function.comp]
      intro hcontra
      omega
    · intro e he
      rcases List.mem_append.mp he with h1 | h1
      · have := hlt e h1
        simp only
        omega
      · simp only [List.mem_singleton] at h1
        subst h1
        simp

/-- A run of composite-state queries preserves cache well-formedness. -/
theorem runQueries_preserves_WF (qs : List (List Nat)) :
    ∀ s : LightManager, CacheWF s → CacheWF (runQueries s qs) := by
  induction qs with
  | nil => intro s hwf; simpa [runQueries] using hwf
  | cons q qs ih =>
    intro s hwf
    exact ih _ (query_preserves_WF s q hwf)

/-- C2 (amended): within one frame (no intervening reset), two
composite-state queries with the same ordered index sequence return the
identical StateSet object, whatever other queries run in between; and two
queries whose sequences have different combined hashes return distinct
objects — sequences with colliding hashes share one object, see the
collision theorem. -/
theorem getLightListStateSet_cache_spec (s : LightManager) (hwf : CacheWF s)
    (l1 l2 : List Nat) (mid : List (List Nat)) :
    (l1 = l2 →
      ((runQueries (s.getLightListStateSet l1).2 mid).getLightListStateSet l2).1
        = (s.getLightListStateSet l1).1) ∧
      (hashLightList l1 ≠ hashLightList l2 →
        ((runQueries (s.getLightListStateSet l1).2 mid).getLightListStateSet l2).1
          ≠ (s.getLightListStateSet l1).1) := by
  have hl : cacheLookup (hashLightList l1)
      (runQueries (s.getLightListStateSet l1).2 mid).mStateSetCache
        = some (s.getLightListStateSet l1).1 :=
    runQueries_preserves_lookup mid _ _ _ (query_lookup_self s l1)
  constructor
  · rintro rfl
    conv_lhs => rw [LightManager.getLightListStateSet]
    simp [hl]
  · intro hne
    have hwf2 : CacheWF (runQueries (s.getLightListStateSet l1).2 mid) :=
      runQueries_preserves_WF mid _ (query_preserves_WF s l1 hwf)
    have hmem : (hashLightList l1, (s.getLightListStateSet l1).1)
        ∈ (runQueries (s.getLightListStateSet l1).2 mid).mStateSetCache :=
      cacheLookup_mem _ _ _ hl
    conv_lhs => rw [LightManager.getLightListStateSet]
    cases h2 : cacheLookup (hashLightList l2)
        (runQueries (s.getLightListStateSet l1).2 mid).mStateSetCache with
    | some ss2 =>
      simp only [h2]
      intro heq
      have hmem2 : (hashLightList l2, ss2)
          ∈ (runQueries (s.getLightListStateSet l1).2 mid).mStateSetCache :=
        cacheLookup_mem _ _ _ h2
      have hid : ((hashLightList l1, (s.getLightListStateSet l1).1) :
              Nat × StateSet).2.mId
            = ((hashLightList l2, ss2) : Nat × StateSet).2.mId := by
        simp [heq]
      have := List.inj_on_of_nodup_map hwf2.1 hmem hmem2 hid
      exact hne (congrArg Prod.fst this)
    | none =>
      simp only [h2]
      intro heq
      have hidlt : (s.getLightListStateSet l1).1.mId
          < (runQueries (s.getLightListStateSet l1).2 mid).mNextId :=
        hwf2.2 _ hmem
      have : (s.getLightListStateSet l1).1.mId
          = (runQueries (s.getLightListStateSet l1).2 mid).mNextId := by
        rw [← heq]
      omega

/-- Witness for C2 (amended) on a freshly reset registry: repeating the
query for sequence [0] returns the same object, and the query for [1]
(different hash) returns a different one. -/
theorem getLightListStateSet_cache_spec_witness :
    ((runQueries (witnessFreshRegistry.getLightListStateSet [0]).2 []).getLightListStateSet [0]).1
        = (witnessFreshRegistry.getLightListStateSet [0]).1 ∧
      ((runQueries (witnessFreshRegistry.getLightListStateSet [0]).2 []).getLightListStateSet [1]).1
        ≠ (witnessFreshRegistry.getLightListStateSet [0]).1 :=
  ⟨(getLightListStateSet_cache_spec witnessFreshRegistry (by decide) [0] [0] []).1 rfl,
   (getLightListStateSet_cache_spec witnessFreshRegistry (by decide) [0] [1] []).2 (by decide)⟩

set_option maxRecDepth 100000 in
/-- Counterexample to C2 as stated: in a frame with 256 registered lights,
the distinct ordered sequences `ceSeqA` and `ceSeqB` (both of length 8,
all indices valid) receive the identical StateSet object, because their
combined hashes collide. -/
theorem distinct_sequences_counterexample :
    ceSeqA ≠ ceSeqB ∧
      ((ceRegistry.getLightListStateSet ceSeqA).2.getLightListStateSet ceSeqB).1
        = (ceRegistry.getLightListStateSet ceSeqA).1 := by
  constructor
  · decide
  · rfl

/-- C10: the composite-state cache is keyed by the combined hash alone: for
any two index sequences with equal hash, the query for the second returns
exactly the object cached by the query for the first, within one frame. -/
theorem hash_collision_shares_state (s : LightManager) (l1 l2 : List Nat)
    (hcoll : hashLightList l1 = hashLightList l2) :
    ((s.getLightListStateSet l1).2.getLightListStateSet l2).1
      = (s.getLightListStateSet l1).1 := by
  have hl : cacheLookup (hashLightList l2)
      ((s.getLightListStateSet l1).2).mStateSetCache
        = some (s.getLightListStateSet l1).1 := by
    rw [← hcoll]
    exact query_lookup_self s l1
  conv_lhs => rw [LightManager.getLightListStateSet]
  simp [hl]

/-- Witness for C10 at the concrete colliding sequences `ceSeqA` and
`ceSeqB` (which differ in content). -/
theorem hash_collision_shares_state_witness :
    hashLightList ceSeqA = hashLightList ceSeqB ∧ ceSeqA ≠ ceSeqB ∧
      ((witnessFreshRegistry.getLightListStateSet ceSeqA).2.getLightListStateSet ceSeqB).1
        = (witnessFreshRegistry.getLightListStateSet ceSeqA).1 :=
  ⟨by decide, by decide,
   hash_collision_shares_state witnessFreshRegistry ceSeqA ceSeqB (by decide)⟩

end SceneUtil
